import Mathlib

/-!
Verification of the workstation-housekeeping runfolder cleaner (`wscleaner`).

The development shallowly embeds the decision engine of the cleaner:

* `DxFile`, `DxProject`, `Env` model the remote (DNAnexus) store and the
  external upload-log artifacts, as observed through the read-only queries
  the engine performs.
* `dxMatchingProjects` / `dxResolve` / `dx_find_one_project` embed
  `DxProjectRunFolder.__dx_find_one_project` (wscleaner.py lines 177-202).
* `dx_find_fastqs` embeds `DxProjectRunFolder.find_fastqs` (lines 143-162).
* `count_logfiles` embeds `DxProjectRunFolder.count_logfiles` of
  wscleaner.py (lines 164-175); `lib_count_logfiles` embeds the legacy
  variant in wscleaner/lib.py (lines 138-149).
* `upload_log_exists` / `check_upload_log` embed the corresponding
  `RunFolderManager` methods (lines 307-331).
* `check_fastqs` embeds `RunFolderManager.check_fastqs` (lines 282-295).
* `deleteRF` embeds `RunFolderManager.delete` (lines 333-340) and
  `processLoop` embeds the decision loop of `__main__.py` (lines 123-143).
* `find_runfolders` embeds `RunFolderManager.find_runfolders`
  (lines 242-280), with Python's `TypeError` on an omitted `min_age`
  modelled by `Except`.

Machine integers do not occur; Python ints are modelled by `Int`/`Nat` and
file contents by `String`.
-/

/-- Unanchored substring containment: `containsSub hay pat` is true iff `pat`
occurs in `hay`.  This models `dxpy` name matching with
`name_mode='regexp'` for a metacharacter-free pattern: per the source
comment, "look for any occurence of the runfolder name in the project
name". -/
def containsSub (hay pat : String) : Bool :=
  (List.range (hay.toList.length + 1)).any
    (fun i => pat.toList.isPrefixOf (hay.toList.drop i))

/-- Splits a string into lines, keeping the `'\n'` terminators, exactly as
Python's `file.readlines()` does for text read with universal newlines. -/
def readlinesAux : List Char → List Char → List String
  | [], [] => []
  | [], acc => [String.mk acc.reverse]
  | c :: rest, acc =>
    if c = '\n' then String.mk (acc.reverse ++ [c]) :: readlinesAux rest []
    else readlinesAux rest (c :: acc)

/-- `readlines content` is the list of lines of `content`, newline
terminators included (Python `f.readlines()`). -/
def readlines (s : String) : List String := readlinesAux s.toList []

/-- A data object of class `file` in a DNAnexus project, as seen through
`dxpy.find_data_objects` / `dxpy.describe`: its name, the folder it lives
in, and its upload state (`"open"` / `"closed"` / ...). -/
structure DxFile where
  name : String
  folder : String
  state : String
deriving DecidableEq, Repr

/-- A DNAnexus project: its opaque id, its recorded display name, and the
file objects it contains. -/
structure DxProject where
  id : String
  name : String
  files : List DxFile
deriving DecidableEq, Repr

/-- The external world the engine queries: the remote project store and the
upload-log artifacts.  An upload log lives at the deterministic path
`upload_runfolder_logdir/<runfolder name>_upload_runfolder.log`, so the
map is keyed by runfolder name; the value is the raw file content. -/
structure Env where
  projects : List DxProject
  uploadLogs : List (String × String)
deriving DecidableEq, Repr

/-- The projects whose recorded name matches the runfolder name
(`dxpy.find_one_project(name=runfolder, name_mode='regexp')` searches for
any occurrence of the runfolder name in the project name). -/
def dxMatchingProjects (store : List DxProject) (n : String) : List DxProject :=
  store.filter (fun p => containsSub p.name n)

/-- `DxProjectRunFolder.__dx_find_one_project`, resolved to the project
record: `dxpy.find_one_project(..., more_ok=False, zero_ok=False)` returns
the unique match and raises `DXSearchError` for zero or several matches;
the `except` branch turns the error into `None`. -/
def dxResolve (store : List DxProject) (n : String) : Option DxProject :=
  match dxMatchingProjects store n with
  | [p] => some p
  | _ => none

/-- `__dx_find_one_project` as observed by its caller: the returned project
id (or `None`), together with the warning lines it logs.  The
`DXSearchError` handler logs the DX PROJECT MISMATCH warning and returns
`None`. -/
def dx_find_one_project (store : List DxProject) (n : String) :
    Option String × List String :=
  match dxResolve store n with
  | some p => (some p.id, [])
  | none =>
    (none, ["DX PROJECT MISMATCH - 0 or >1 DNAnexus projects found for " ++ n])

/-- `DxProjectRunFolder.__bool__`: Python truthiness of the stored id,
false for `None` and for the empty string. -/
def dxTruthy (idOpt : Option String) : Bool :=
  match idOpt with
  | some s => !s.isEmpty
  | none => false

/-- One step of the regex `fastq.gz` at the head of a character list:
`f`,`a`,`s`,`t`,`q`, then any character other than a newline (the `.`
metacharacter), then `g`,`z`. -/
def fastqPatAt : List Char → Bool
  | 'f' :: 'a' :: 's' :: 't' :: 'q' :: c :: 'g' :: 'z' :: _ => c != '\n'
  | _ => false

/-- Unanchored match of the regex `fastq.gz` against a filename, as used by
`dxpy.find_data_objects(..., name="fastq.gz", name_mode='regexp')`. -/
def fastqRegexMatch (s : String) : Bool :=
  s.toList.tails.any fastqPatAt

/-- `DxProjectRunFolder.find_fastqs`: query the file objects matching the
`fastq.gz` regex, keep the names of those whose described state is
`closed`, and sort the names. -/
def dx_find_fastqs (proj : DxProject) : List String :=
  let matched := proj.files.filter (fun f => fastqRegexMatch f.name)
  let closedNames :=
    (matched.filter (fun f => f.state == "closed")).map DxFile.name
  List.insertionSort (· ≤ ·) closedNames

/-- Folder filter of `dxpy.find_data_objects(project=..., folder=dir,
classname='file')`: the query recurses into subfolders by default, so a
file is returned when its folder is `dir` itself or lies below it. -/
def inFolder (dir : String) (f : DxFile) : Bool :=
  f.folder == dir || (dir ++ "/").toList.isPrefixOf f.folder.toList

/-- `DxProjectRunFolder.count_logfiles` of wscleaner.py: the logfile
directory is `os.path.join("/", self.runfolder,
"automated_scripts_logfiles")`, built from the unmodified local runfolder
name. -/
def count_logfiles (proj : DxProject) (runfolder : String) : Nat :=
  let logfileDir := "/" ++ runfolder ++ "/automated_scripts_logfiles"
  (proj.files.filter (inFolder logfileDir)).length

/-- `DxProjectRunFolder.count_logfiles` of the legacy wscleaner/lib.py: the
uploaded runfolder is `dxpy.describe(self.id)['name'][4:]` (the project's
recorded name with its first four characters removed) and the logfile
directory is `Path('/', uploaded_runfolder, 'Logfiles')`. -/
def lib_count_logfiles (proj : DxProject) : Nat :=
  let uploadedRunfolder := String.mk (proj.name.toList.drop 4)
  let logfileDir := "/" ++ uploadedRunfolder ++ "/Logfiles"
  (proj.files.filter (inFolder logfileDir)).length

/-- `RunFolderManager.upload_log_exists`: `os.path.exists` on the
deterministic upload-log path.  (The Python function returns `True` or
falls through to `None`; only its truthiness is ever used.) -/
def upload_log_exists (env : Env) (runfolderName : String) : Bool :=
  (env.uploadLogs.lookup runfolderName).isSome

/-- `RunFolderManager.check_upload_log`: opens the upload log (raising
`FileNotFoundError`, modelled as `none`, when it is missing), reads
`log_contents = f.readlines()` and tests `"- ERROR -" in log_contents` —
a Python `list` membership test, i.e. whole-line equality against the
marker, not a substring scan. -/
def check_upload_log (env : Env) (runfolderName : String) : Option Bool :=
  (env.uploadLogs.lookup runfolderName).map
    (fun content =>
      let logContents := readlines content
      if logContents.contains "- ERROR -" then false else true)

/-- `RunFolderManager.check_fastqs`: start from `True` and clear the flag
for every local fastq name that is absent from the project's closed
fastqs. -/
def check_fastqs (dxFastqs : List String) (localFastqs : List String) : Bool :=
  localFastqs.foldl
    (fun fastqBool fq => if !(dxFastqs.contains fq) then false else fastqBool)
    true

/-- A candidate runfolder as seen by the decision loop: its directory name,
its local fastq filenames (`RunFolder.find_fastqs`, already sorted), and
whether `shutil.rmtree` on its path would raise (permissions, concurrent
removal). -/
structure RunFolderR where
  name : String
  localFastqs : List String
  rmtreeFails : Bool
deriving DecidableEq, Repr

/-- The mutable state of a `RunFolderManager` run: the runfolder
directories still present on disk and the accumulated `deleted` list. -/
structure ManagerState where
  present : List String
  deleted : List String
deriving DecidableEq, Repr

/-- Outcome of the decision loop: final state, warning log, and whether an
unhandled exception escaped the loop (there is no `try`/`except` around
`RFM.delete`). -/
structure LoopResult where
  st : ManagerState
  log : List String
  aborted : Bool
deriving DecidableEq, Repr

/-- `RunFolderManager.delete`: in dry-run mode only a log entry is written;
otherwise the runfolder name is appended to `self.deleted` first and
`shutil.rmtree` runs second, so a failing removal (second component
`true`) leaves the name on the deleted list and the tree on disk. -/
def deleteRF (dryRun : Bool) (rf : RunFolderR) (st : ManagerState) :
    ManagerState × Bool :=
  if dryRun then (st, false)
  else
    let st1 : ManagerState := { st with deleted := st.deleted ++ [rf.name] }
    if rf.rmtreeFails then (st1, true)
    else ({ st1 with present := st1.present.erase rf.name }, false)

/-- The decision loop of `__main__.py` (lines 123-143): for each runfolder
with a truthy resolved project, compute the fastq and logfile checks and
delete when both pass; otherwise emit per-check warnings, consulting the
upload log only in the warning branch.  An exception raised by `delete`
propagates and aborts the remaining batch. -/
def processLoop (env : Env) (dryRun : Bool) (logfileCount : Nat) :
    List RunFolderR → ManagerState → List String → LoopResult
  | [], st, log => ⟨st, log, false⟩
  | rf :: rest, st, log =>
    match dxResolve env.projects rf.name with
    | some proj =>
      if dxTruthy (some proj.id) then
        let fastqsUploaded := check_fastqs (dx_find_fastqs proj) rf.localFastqs
        let logfilesUploaded := count_logfiles proj rf.name == logfileCount
        let uploadLogExists := upload_log_exists env rf.name
        if fastqsUploaded && logfilesUploaded then
          let d := deleteRF dryRun rf st
          if d.2 then ⟨d.1, log, true⟩
          else processLoop env dryRun logfileCount rest d.1 log
        else
          let log1 := log ++
            (if !fastqsUploaded then [rf.name ++ " - FASTQ MISMATCH"] else [])
          let log2 := log1 ++
            (if !logfilesUploaded then [rf.name ++ " - LOGFILE MISMATCH"] else [])
          let log3 :=
            if !uploadLogExists then log2 ++ [rf.name ++ " - UPLOAD LOG MISSING"]
            else
              match check_upload_log env rf.name with
              | some clean =>
                if !clean then log2 ++ [rf.name ++ " - UPLOAD LOG CONTAINS ERRORS"]
                else log2
              | none => log2
          processLoop env dryRun logfileCount rest st log3
      else processLoop env dryRun logfileCount rest st log
    | none => processLoop env dryRun logfileCount rest st log

/-- A Python exception relevant to the embedded code. -/
inductive PyError where
  | typeError
deriving DecidableEq, Repr

/-- An immediate child of the runfolder root directory, as observed by
`find_runfolders`: its basename, whether it is a directory, its
last-modified time (seconds), whether `RTAComplete.txt` exists in it, the
result of `RunFolder.TSO500_check` (true iff the bcl2fastq2 log trailer
carries the TSO500 marker and the resolved project name contains `_TSO`),
and the basenames of all entries below it (for the fastq glob). -/
structure LocalDir where
  name : String
  isDir : Bool
  mtime : Int
  hasRTAComplete : Bool
  tso500 : Bool
  files : List String
deriving DecidableEq, Repr

/-- `RunFolder.age`: `(time.time() - st_mtime) // (24 * 3600)`, a floored
division of the elapsed seconds. -/
def dirAge (now : Int) (d : LocalDir) : Int :=
  (now - d.mtime).fdiv (24 * 3600)

/-- `RunFolder.find_fastqs`: names matched by the recursive glob
`*.fastq.gz`, sorted. -/
def localFastqList (d : LocalDir) : List String :=
  List.insertionSort (· ≤ ·)
    (d.files.filter (fun n => ".fastq.gz".toList.isSuffixOf n.toList))

/-- `RunFolder.find_fastqs(count=True)`. -/
def localFastqCount (d : LocalDir) : Nat := (localFastqList d).length

/-- True when the character list contains no newline. -/
def noNewline (l : List Char) : Bool := !(l.contains '\n')

/-- The `.*$` tail of the runfolder-name regex under Python `re.match`
semantics: `.` never crosses a newline and `$` matches at the end of the
string or just before one final trailing newline. -/
def regexTailOk (l : List Char) : Bool :=
  noNewline l || (l.getLast? == some '\n' && noNewline l.dropLast)

/-- `re.compile("^[0-9]{6}.*$").match(directory.name)` as a Boolean: six
leading ASCII digits followed by a newline-free remainder (one trailing
newline tolerated by `$`). -/
def runfolderNameMatch (s : String) : Bool :=
  let cs := s.toList
  decide (6 ≤ cs.length) && (cs.take 6).all Char.isDigit && regexTailOk (cs.drop 6)

/-- The `rf.age >= min_age` comparison: comparing a float to Python `None`
(the declared default of `min_age`) raises `TypeError`. -/
def ageGE (now : Int) (d : LocalDir) (minAge : Option Int) : Except PyError Bool :=
  match minAge with
  | none => .error .typeError
  | some m => .ok (decide (dirAge now d ≥ m))

/-- The body of the `find_runfolders` loop over the mtime-sorted directory
list: skip names that miss the leading-digit pattern or lack
`RTAComplete.txt`, then keep the folder when it is old enough and is
either a TSO500 run or holds at least one fastq. -/
def findRunfoldersGo (now : Int) (minAge : Option Int) :
    List LocalDir → Except PyError (List LocalDir)
  | [] => .ok []
  | d :: rest =>
    if runfolderNameMatch d.name then
      if !d.hasRTAComplete then findRunfoldersGo now minAge rest
      else
        match ageGE now d minAge with
        | .error e => .error e
        | .ok oldEnough =>
          if oldEnough && d.tso500 then
            (findRunfoldersGo now minAge rest).map (d :: ·)
          else if oldEnough && decide (0 < localFastqCount d) then
            (findRunfoldersGo now minAge rest).map (d :: ·)
          else findRunfoldersGo now minAge rest
    else findRunfoldersGo now minAge rest

/-- `RunFolderManager.find_runfolders`: list the immediate subdirectories
of the root, sort them by last-modified time, and filter with
`findRunfoldersGo`. -/
def find_runfolders (now : Int) (root : List LocalDir) (minAge : Option Int) :
    Except PyError (List LocalDir) :=
  let directoryList :=
    List.insertionSort (fun a b => a.mtime ≤ b.mtime) (root.filter (·.isDir))
  findRunfoldersGo now minAge directoryList

/-- The discovery filter stated by the spec for a root child: leading-digit
name pattern, completion marker present, age at least the threshold, and
TSO500 or at least one fastq.  Used to characterise `find_runfolders`. -/
def discoveryCriteria (now : Int) (m : Int) (d : LocalDir) : Prop :=
  runfolderNameMatch d.name = true ∧ d.hasRTAComplete = true ∧
  m ≤ dirAge now d ∧ (d.tso500 = true ∨ 0 < localFastqCount d)

/-- Project used for the C1 instance: it matches runfolder 999999_RUN1,
holds its one closed fastq and one remote logfile. -/
def cexProj1 : DxProject :=
  ⟨"project-1", "003_999999_RUN1",
    [⟨"a.fastq.gz", "/", "closed"⟩,
     ⟨"log1.log", "/999999_RUN1/automated_scripts_logfiles", "closed"⟩]⟩

/-- Environment for the C1 instance: the project store holds `cexProj1`
and no upload-log artifact exists for any runfolder. -/
def cexEnv1 : Env := ⟨[cexProj1], []⟩

/-- Candidate runfolder for the C1 instance: one local fastq, removable. -/
def cexRF1 : RunFolderR := ⟨"999999_RUN1", ["a.fastq.gz"], false⟩

/-- Project used for the C3 instance: recorded name `003_999999_RUN3`,
one file under `/999999_RUN3/automated_scripts_logfiles`. -/
def cexProj3 : DxProject :=
  ⟨"project-3", "003_999999_RUN3",
    [⟨"log1.log", "/999999_RUN3/automated_scripts_logfiles", "closed"⟩]⟩

/-- Projects for the C4 instance, one per candidate runfolder. -/
def cexProj4A : DxProject :=
  ⟨"project-4a", "003_999999_RUNA",
    [⟨"la.log", "/999999_RUNA/automated_scripts_logfiles", "closed"⟩]⟩

/-- Second project for the C4 instance. -/
def cexProj4B : DxProject :=
  ⟨"project-4b", "003_999999_RUNB",
    [⟨"lb.log", "/999999_RUNB/automated_scripts_logfiles", "closed"⟩]⟩

/-- Environment for the C4 instance: both projects resolve uniquely and
both runfolders have clean upload logs. -/
def cexEnv4 : Env :=
  ⟨[cexProj4A, cexProj4B], [("999999_RUNA", ""), ("999999_RUNB", "")]⟩

/-- First C4 candidate: all checks pass but `shutil.rmtree` raises. -/
def cexRF4A : RunFolderR := ⟨"999999_RUNA", [], true⟩

/-- Second C4 candidate: all checks pass and removal would succeed. -/
def cexRF4B : RunFolderR := ⟨"999999_RUNB", [], false⟩

/-- Project store for the C5 instance: exactly one project matches
runfolder 999999_RUN5. -/
def cexStore5 : List DxProject :=
  [⟨"project-5", "003_999999_RUN5", []⟩, ⟨"project-6", "003_888888_RUN6", []⟩]

/-- Environment for the C5 instance: no project matches the candidate
runfolder's name (ambiguity resolved to no project). -/
def cexEnv5 : Env := ⟨[⟨"project-7", "003_777777_OTHER", []⟩], []⟩

/-- Candidate runfolder for the C5 instance. -/
def cexRF5 : RunFolderR := ⟨"999999_RUN5", ["b.fastq.gz"], false⟩

/-- Project for the C7 instance: a TSO500-style project (name carries
`_TSO`), no fastqs, one remote logfile. -/
def cexProj7 : DxProject :=
  ⟨"project-8", "003_999999_RUN7_TSO",
    [⟨"l7.log", "/999999_RUN7/automated_scripts_logfiles", "closed"⟩]⟩

/-- Environment for the C7 instance: the project resolves uniquely and the
upload log exists with a clean content line. -/
def cexEnv7 : Env :=
  ⟨[cexProj7], [("999999_RUN7", "2021-01-01 12:00:00 - wscleaner - INFO - done\n")]⟩

/-- Candidate runfolder for the C7 instance: a TSO500 run with zero local
fastq files. -/
def cexRF7 : RunFolderR := ⟨"999999_RUN7", [], false⟩

/-- Root child for the C10 instance: a named, completed runfolder
directory. -/
def cexDir10 : LocalDir := ⟨"999999_B", true, 0, true, false, []⟩

/-- In dry-run mode every iteration of the decision loop leaves the
manager state untouched and no exception can escape. -/
theorem processLoop_dry (env : Env) (k : Nat) :
    ∀ (rfs : List RunFolderR) (st : ManagerState) (log : List String),
      (processLoop env true k rfs st log).st = st ∧
      (processLoop env true k rfs st log).aborted = false := by
  intro rfs
  induction rfs with
  | nil => intro st log; exact ⟨rfl, rfl⟩
  | cons rf rest ih =>
    intro st log
    simp only [processLoop]
    cases hres : dxResolve env.projects rf.name with
    | none => exact ih st log
    | some proj =>
      by_cases hid : dxTruthy (some proj.id) = true
      · simp only [hid, if_true]
        by_cases hgate :
            (check_fastqs (dx_find_fastqs proj) rf.localFastqs &&
              (count_logfiles proj rf.name == k)) = true
        · simp only [hgate, if_true, deleteRF, if_true]
          exact ih st log
        · simp only [hgate, if_false]
          exact ih st _
      · simp only [Bool.not_eq_true] at hid
        simp only [hid, if_false]
        exact ih st log

/-- C9: with `dry_run=True`, `RunFolderManager.delete` performs no
filesystem mutation and leaves the `deleted` list unchanged; running the
whole decision loop in dry-run mode likewise leaves the manager state
untouched. -/
theorem dry_run_delete_is_noop (rf : RunFolderR) (st : ManagerState)
    (env : Env) (k : Nat) (rfs : List RunFolderR) (log : List String) :
    deleteRF true rf st = (st, false) ∧
    (processLoop env true k rfs st log).st = st ∧
    (processLoop env true k rfs st log).aborted = false :=
  ⟨rfl, (processLoop_dry env k rfs st log).1, (processLoop_dry env k rfs st log).2⟩

/-- C2: `check_upload_log` returns true on an upload log whose single line
contains the literal marker `- ERROR -` as a substring, because the
membership test `"- ERROR -" in f.readlines()` compares whole lines
against the marker instead of scanning line contents.  This contradicts
the function's own docstring ("Returns true if a runfolder's upload log
file contains no ERROR logs"). -/
theorem check_upload_log_ignores_error_lines :
    check_upload_log
        ⟨[], [("999999_RUN1",
          "2021-01-01 12:00:00 - wscleaner - ERROR - upload failed\n")]⟩
        "999999_RUN1" = some true ∧
    containsSub "2021-01-01 12:00:00 - wscleaner - ERROR - upload failed"
        "- ERROR -" = true := by
  exact ⟨rfl, rfl⟩

/-- C1 counterexample: a runfolder whose upload-log artifact does not
exist at all is nevertheless deleted by the decision loop, because the
delete decision tests only the fastq and logfile checks. -/
theorem upload_log_not_gating_cex :
    upload_log_exists cexEnv1 "999999_RUN1" = false ∧
    processLoop cexEnv1 false 1 [cexRF1] ⟨["999999_RUN1"], []⟩ [] =
      ⟨⟨[], ["999999_RUN1"]⟩, [], false⟩ := by
  exact ⟨rfl, rfl⟩

/-- C1 amended: for a runfolder with a truthy resolved project and a
working removal, the loop deletes it if and only if every local fastq
appears remotely and the remote logfile count equals the expected count;
the upload-log checks never gate the decision. -/
theorem delete_gate_fastq_logfile_only (env : Env) (k : Nat) (rf : RunFolderR)
    (proj : DxProject) (st : ManagerState) (log : List String)
    (hres : dxResolve env.projects rf.name = some proj)
    (hid : proj.id.isEmpty = false)
    (hfail : rf.rmtreeFails = false) :
    (processLoop env false k [rf] st log).aborted = false ∧
    ((processLoop env false k [rf] st log).st.deleted = st.deleted ++ [rf.name] ↔
      (check_fastqs (dx_find_fastqs proj) rf.localFastqs &&
        (count_logfiles proj rf.name == k)) = true) ∧
    ((check_fastqs (dx_find_fastqs proj) rf.localFastqs &&
        (count_logfiles proj rf.name == k)) = false →
      (processLoop env false k [rf] st log).st = st) := by
  have htruthy : dxTruthy (some proj.id) = true := by simp [dxTruthy, hid]
  by_cases hgate :
      (check_fastqs (dx_find_fastqs proj) rf.localFastqs &&
        (count_logfiles proj rf.name == k)) = true
  · have hrun : processLoop env false k [rf] st log =
        ⟨⟨st.present.erase rf.name, st.deleted ++ [rf.name]⟩, log, false⟩ := by
      simp [processLoop, hres, htruthy, hgate, deleteRF, hfail]
    rw [hrun]
    refine ⟨rfl, Iff.intro (fun _ => hgate) (fun _ => rfl), fun h => ?_⟩
    rw [hgate] at h
    exact absurd h (by simp)
  · rw [Bool.not_eq_true] at hgate
    have hst : (processLoop env false k [rf] st log).st = st := by
      simp [processLoop, hres, htruthy, hgate]
    have hab : (processLoop env false k [rf] st log).aborted = false := by
      simp [processLoop, hres, htruthy, hgate]
    refine ⟨hab, ?_, fun _ => hst⟩
    rw [hst]
    constructor
    · intro h; exact absurd h (by simp)
    · intro h; rw [h] at hgate; exact absurd hgate (by simp)

/-- Witness for the C1 amended gate theorem at a concrete instance. -/
theorem delete_gate_fastq_logfile_only_witness :
    (processLoop cexEnv1 false 1 [cexRF1] ⟨["999999_RUN1"], []⟩ []).st.deleted =
      ["999999_RUN1"] := by
  have h := delete_gate_fastq_logfile_only cexEnv1 1 cexRF1 cexProj1
      ⟨["999999_RUN1"], []⟩ [] rfl rfl rfl
  simpa using h.2.1.mpr (by decide)

/-- C3 counterexample: the same project record yields different logfile
counts for two different local runfolder names, so the directory counted
by `count_logfiles` is not derived from the project's recorded name; and
the legacy prefix-stripped convention would count zero files here. -/
theorem count_logfiles_local_name_cex :
    count_logfiles cexProj3 "999999_RUN3" = 1 ∧
    count_logfiles cexProj3 "999999_OTHER" = 0 ∧
    count_logfiles cexProj3 "999999_RUN3" ≠ count_logfiles cexProj3 "999999_OTHER" ∧
    lib_count_logfiles cexProj3 = 0 := by
  refine ⟨rfl, rfl, by decide, by decide⟩

/-- C3 amended: the current `count_logfiles` counts objects under
`/<local runfolder name>/automated_scripts_logfiles` and never consults
the project's recorded name (projects with equal file lists give equal
counts); only the legacy lib.py variant derives its directory from the
project name with the first four characters removed, joined to
`Logfiles`. -/
theorem count_logfiles_ignores_project_record (p q : DxProject) (n : String)
    (h : p.files = q.files) :
    count_logfiles p n = count_logfiles q n ∧
    lib_count_logfiles p =
      (p.files.filter (inFolder
        ("/" ++ String.mk (p.name.toList.drop 4) ++ "/Logfiles"))).length := by
  constructor
  · unfold count_logfiles
    rw [h]
  · rfl

/-- Witness for the C3 amended theorem at a concrete instance. -/
theorem count_logfiles_ignores_project_record_witness :
    count_logfiles cexProj3 "999999_RUN3" =
      count_logfiles ⟨"project-x", "UNRELATED_NAME", cexProj3.files⟩
        "999999_RUN3" :=
  (count_logfiles_ignores_project_record cexProj3
    ⟨"project-x", "UNRELATED_NAME", cexProj3.files⟩ "999999_RUN3" rfl).1

/-- C4 counterexample: the first candidate's removal raises, the loop
aborts before reaching the second candidate, and the failed runfolder's
name sits on the deleted list exactly like a success. -/
theorem delete_failure_cex :
    processLoop cexEnv4 false 1 [cexRF4A, cexRF4B]
        ⟨["999999_RUNA", "999999_RUNB"], []⟩ [] =
      ⟨⟨["999999_RUNA", "999999_RUNB"], ["999999_RUNA"]⟩, [], true⟩ := by
  exact rfl

/-- C4 amended: when `shutil.rmtree` fails on a runfolder that passed the
checks, the exception propagates out of the loop — the remaining
candidates are not processed — and the failed runfolder's name has
already been appended to the deleted list, while its tree stays on
disk. -/
theorem delete_failure_aborts_batch (env : Env) (k : Nat) (rf : RunFolderR)
    (rest : List RunFolderR) (proj : DxProject) (st : ManagerState)
    (log : List String)
    (hres : dxResolve env.projects rf.name = some proj)
    (hid : proj.id.isEmpty = false)
    (hgate : (check_fastqs (dx_find_fastqs proj) rf.localFastqs &&
        (count_logfiles proj rf.name == k)) = true)
    (hfail : rf.rmtreeFails = true) :
    processLoop env false k (rf :: rest) st log =
      ⟨⟨st.present, st.deleted ++ [rf.name]⟩, log, true⟩ := by
  have htruthy : dxTruthy (some proj.id) = true := by simp [dxTruthy, hid]
  simp [processLoop, hres, htruthy, hgate, deleteRF, hfail]

/-- Witness for the C4 amended abort theorem at a concrete instance. -/
theorem delete_failure_aborts_batch_witness :
    processLoop cexEnv4 false 1 [cexRF4A] ⟨["999999_RUNA"], ["999999_OLD"]⟩ [] =
      ⟨⟨["999999_RUNA"], ["999999_OLD", "999999_RUNA"]⟩, [], true⟩ := by
  have h := delete_failure_aborts_batch cexEnv4 1 cexRF4A [] cexProj4A
      ⟨["999999_RUNA"], ["999999_OLD"]⟩ [] rfl rfl (by decide) rfl
  simpa using h

/-- C5: project resolution returns an id exactly when one stored project
matches the runfolder name; zero or multiple matches yield no project
(with the mismatch warning logged, never an exception), and a runfolder
whose project is unresolved is skipped by the loop without any check or
deletion. -/
theorem project_resolution_unique_or_none (store : List DxProject) (n : String)
    (env : Env) (dry : Bool) (k : Nat) (rf : RunFolderR)
    (rest : List RunFolderR) (st : ManagerState) (log : List String) :
    ((dx_find_one_project store n).1.isSome = true ↔
      (dxMatchingProjects store n).length = 1) ∧
    (∀ p, dxMatchingProjects store n = [p] →
      (dx_find_one_project store n).1 = some p.id) ∧
    ((dx_find_one_project store n).1 = none →
      (dx_find_one_project store n).2 ≠ []) ∧
    (dxResolve env.projects rf.name = none →
      processLoop env dry k (rf :: rest) st log =
        processLoop env dry k rest st log) := by
  refine ⟨?_, ?_, ?_, ?_⟩
  · unfold dx_find_one_project dxResolve
    cases hm : dxMatchingProjects store n with
    | nil => simp
    | cons p tail =>
      cases tail with
      | nil => simp
      | cons q tail2 => simp
  · intro p hp
    unfold dx_find_one_project dxResolve
    rw [hp]
  · intro hnone
    unfold dx_find_one_project at hnone ⊢
    cases hm : dxResolve store n with
    | none => simp
    | some p => rw [hm] at hnone; simp at hnone
  · intro hnone
    simp [processLoop, hnone]

/-- Witness for the C5 theorem at concrete instances. -/
theorem project_resolution_unique_or_none_witness :
    (dx_find_one_project cexStore5 "999999_RUN5").1 = some "project-5" ∧
    processLoop cexEnv5 false 6 [cexRF5] ⟨["999999_RUN5"], []⟩ [] =
      processLoop cexEnv5 false 6 [] ⟨["999999_RUN5"], []⟩ [] := by
  have h := project_resolution_unique_or_none cexStore5 "999999_RUN5" cexEnv5
      false 6 cexRF5 [] ⟨["999999_RUN5"], []⟩ []
  exact ⟨h.2.1 ⟨"project-5", "003_999999_RUN5", []⟩ (by decide), h.2.2.2 rfl⟩

/-- C6: the remote fastq query returns a list sorted by name that contains
exactly the names of project files matching the `fastq.gz` pattern whose
upload state is `closed`; a file in any other state never appears. -/
theorem dx_find_fastqs_sorted_closed (proj : DxProject) :
    List.Sorted (· ≤ ·) (dx_find_fastqs proj) ∧
    ∀ x : String, x ∈ dx_find_fastqs proj ↔
      ∃ f ∈ proj.files, f.name = x ∧ fastqRegexMatch f.name = true ∧
        f.state = "closed" := by
  constructor
  · exact List.sorted_insertionSort _ _
  · intro x
    unfold dx_find_fastqs
    rw [List.mem_insertionSort]
    simp only [List.mem_map, List.mem_filter, beq_iff_eq]
    constructor
    · rintro ⟨f, ⟨⟨hf, hregex⟩, hstate⟩, hname⟩
      exact ⟨f, hf, hname, hregex, hstate⟩
    · rintro ⟨f, hf, hname, hregex, hstate⟩
      exact ⟨f, ⟨⟨hf, hregex⟩, hstate⟩, hname⟩

/-- C7: a TSO500-style candidate with zero local fastq files, a truthy
resolved project, the expected remote logfile count, an existing and
clean upload log, and a working removal is deleted: the fastq-parity
check passes vacuously and never blocks eligibility. -/
theorem tso500_zero_fastq_deleted (env : Env) (k : Nat) (rf : RunFolderR)
    (proj : DxProject) (st : ManagerState) (log : List String)
    (hres : dxResolve env.projects rf.name = some proj)
    (hid : proj.id.isEmpty = false)
    (hloc : rf.localFastqs = [])
    (hcount : count_logfiles proj rf.name = k)
    (_hexists : upload_log_exists env rf.name = true)
    (_hclean : check_upload_log env rf.name = some true)
    (hfail : rf.rmtreeFails = false) :
    processLoop env false k [rf] st log =
      ⟨⟨st.present.erase rf.name, st.deleted ++ [rf.name]⟩, log, false⟩ := by
  have htruthy : dxTruthy (some proj.id) = true := by simp [dxTruthy, hid]
  have hcf : check_fastqs (dx_find_fastqs proj) rf.localFastqs = true := by
    rw [hloc]; rfl
  have hgate : (check_fastqs (dx_find_fastqs proj) rf.localFastqs &&
      (count_logfiles proj rf.name == k)) = true := by
    simp [hcf, hcount]
  simp [processLoop, hres, htruthy, hgate, deleteRF, hfail]

/-- Witness for the C7 theorem at a concrete instance. -/
theorem tso500_zero_fastq_deleted_witness :
    processLoop cexEnv7 false 1 [cexRF7] ⟨["999999_RUN7"], []⟩ [] =
      ⟨⟨[], ["999999_RUN7"]⟩, [], false⟩ := by
  have h := tso500_zero_fastq_deleted cexEnv7 1 cexRF7 cexProj7
      ⟨["999999_RUN7"], []⟩ [] rfl rfl rfl rfl rfl rfl rfl
  simpa using h

/-- The loop body of `find_runfolders` keeps exactly the directories that
satisfy the discovery criteria, and never fails when a numeric minimum
age is supplied. -/
theorem findRunfoldersGo_some_spec (now m : Int) :
    ∀ xs : List LocalDir, ∃ l, findRunfoldersGo now (some m) xs = .ok l ∧
      ∀ d, d ∈ l ↔ d ∈ xs ∧ discoveryCriteria now m d := by
  intro xs
  induction xs with
  | nil => exact ⟨[], rfl, by simp⟩
  | cons d0 rest ih =>
    obtain ⟨l, hl, hmem⟩ := ih
    by_cases h1 : runfolderNameMatch d0.name = true
    · by_cases h2 : d0.hasRTAComplete = true
      · by_cases h3 : m ≤ dirAge now d0
        · by_cases h4 : d0.tso500 = true
          · refine ⟨d0 :: l, ?_, ?_⟩
            · simp [findRunfoldersGo, h1, h2, ageGE, h3, h4, hl, Except.map]
            · have hc0 : discoveryCriteria now m d0 := ⟨h1, h2, h3, Or.inl h4⟩
              intro d
              rw [List.mem_cons, hmem, List.mem_cons]
              constructor
              · rintro (rfl | ⟨hm, hc⟩)
                · exact ⟨Or.inl rfl, hc0⟩
                · exact ⟨Or.inr hm, hc⟩
              · rintro ⟨rfl | hm, hc⟩
                · exact Or.inl rfl
                · exact Or.inr ⟨hm, hc⟩
          · by_cases h5 : 0 < localFastqCount d0
            · refine ⟨d0 :: l, ?_, ?_⟩
              · simp [findRunfoldersGo, h1, h2, ageGE, h3, h4, h5, hl, Except.map]
              · have hc0 : discoveryCriteria now m d0 := ⟨h1, h2, h3, Or.inr h5⟩
                intro d
                rw [List.mem_cons, hmem, List.mem_cons]
                constructor
                · rintro (rfl | ⟨hm, hc⟩)
                  · exact ⟨Or.inl rfl, hc0⟩
                  · exact ⟨Or.inr hm, hc⟩
                · rintro ⟨rfl | hm, hc⟩
                  · exact Or.inl rfl
                  · exact Or.inr ⟨hm, hc⟩
            · refine ⟨l, ?_, ?_⟩
              · simp [findRunfoldersGo, h1, h2, ageGE, h3, h4, h5, hl]
              · have hnc0 : ¬ discoveryCriteria now m d0 := by
                  rintro ⟨-, -, -, (ht | hf)⟩
                  · exact h4 ht
                  · exact h5 hf
                intro d
                rw [hmem, List.mem_cons]
                constructor
                · rintro ⟨hm, hc⟩; exact ⟨Or.inr hm, hc⟩
                · rintro ⟨rfl | hm, hc⟩
                  · exact absurd hc hnc0
                  · exact ⟨hm, hc⟩
        · refine ⟨l, ?_, ?_⟩
          · simp [findRunfoldersGo, h1, h2, ageGE, h3, hl]
          · have hnc0 : ¬ discoveryCriteria now m d0 := by
              rintro ⟨-, -, ha, -⟩; exact h3 ha
            intro d
            rw [hmem, List.mem_cons]
            constructor
            · rintro ⟨hm, hc⟩; exact ⟨Or.inr hm, hc⟩
            · rintro ⟨rfl | hm, hc⟩
              · exact absurd hc hnc0
              · exact ⟨hm, hc⟩
      · refine ⟨l, ?_, ?_⟩
        · simp [findRunfoldersGo, h1, h2, hl]
        · have hnc0 : ¬ discoveryCriteria now m d0 := by
            rintro ⟨-, hr, -, -⟩; exact h2 hr
          intro d
          rw [hmem, List.mem_cons]
          constructor
          · rintro ⟨hm, hc⟩; exact ⟨Or.inr hm, hc⟩
          · rintro ⟨rfl | hm, hc⟩
            · exact absurd hc hnc0
            · exact ⟨hm, hc⟩
    · refine ⟨l, ?_, ?_⟩
      · simp [findRunfoldersGo, h1, hl]
      · have hnc0 : ¬ discoveryCriteria now m d0 := by
          rintro ⟨hn, -, -, -⟩; exact h1 hn
        intro d
        rw [hmem, List.mem_cons]
        constructor
        · rintro ⟨hm, hc⟩; exact ⟨Or.inr hm, hc⟩
        · rintro ⟨rfl | hm, hc⟩
          · exact absurd hc hnc0
          · exact ⟨hm, hc⟩

/-- C8: with a numeric `min_age`, `find_runfolders` succeeds and returns
exactly the immediate subdirectories whose name starts with six digits,
whose `RTAComplete.txt` marker exists, whose whole-day age is at least
`min_age`, and which are TSO500 runs or contain at least one fastq; a
directory without the completion marker is never a candidate. -/
theorem find_runfolders_exact_filter (now : Int) (root : List LocalDir)
    (m : Int) :
    ∃ l, find_runfolders now root (some m) = .ok l ∧
      ∀ d : LocalDir, d ∈ l ↔
        d ∈ root ∧ d.isDir = true ∧ runfolderNameMatch d.name = true ∧
        d.hasRTAComplete = true ∧ m ≤ dirAge now d ∧
        (d.tso500 = true ∨ 0 < localFastqCount d) := by
  obtain ⟨l, hl, hmem⟩ := findRunfoldersGo_some_spec now m
    (List.insertionSort (fun a b => a.mtime ≤ b.mtime) (root.filter (·.isDir)))
  refine ⟨l, hl, fun d => ?_⟩
  rw [hmem d]
  have hsort : d ∈ List.insertionSort (fun a b => a.mtime ≤ b.mtime)
      (root.filter (·.isDir)) ↔ d ∈ root.filter (·.isDir) :=
    (List.perm_insertionSort _ _).mem_iff
  rw [hsort, List.mem_filter]
  unfold discoveryCriteria
  tauto

/-- With `min_age` left at its `None` default, the first qualifying
directory makes the age comparison raise `TypeError`. -/
theorem findRunfoldersGo_none_error (now : Int) :
    ∀ xs : List LocalDir,
      (∃ d ∈ xs, runfolderNameMatch d.name = true ∧ d.hasRTAComplete = true) →
      findRunfoldersGo now none xs = .error .typeError := by
  intro xs
  induction xs with
  | nil => rintro ⟨d, hd, -⟩; cases hd
  | cons d0 rest ih =>
    rintro ⟨d, hd, hnm, hrta⟩
    by_cases h1 : runfolderNameMatch d0.name = true
    · by_cases h2 : d0.hasRTAComplete = true
      · simp [findRunfoldersGo, h1, h2, ageGE]
      · have hd' : d ∈ rest := by
          rcases List.mem_cons.mp hd with rfl | hm
          · exact absurd hrta h2
          · exact hm
        simp only [findRunfoldersGo, h1, if_true]
        rw [if_pos (by simp [h2])]
        exact ih ⟨d, hd', hnm, hrta⟩
    · have hd' : d ∈ rest := by
        rcases List.mem_cons.mp hd with rfl | hm
        · exact absurd hnm h1
        · exact hm
      simp only [findRunfoldersGo, h1, if_false]
      exact ih ⟨d, hd', hnm, hrta⟩

/-- C10: on a root with at least one six-digit-named, completed
subdirectory, calling `find_runfolders` without a numeric `min_age`
raises `TypeError` (comparing a float age to `None`) instead of
returning a list. -/
theorem find_runfolders_none_min_age_raises (now : Int) (root : List LocalDir)
    (h : ∃ d ∈ root, d.isDir = true ∧ runfolderNameMatch d.name = true ∧
      d.hasRTAComplete = true) :
    find_runfolders now root none = .error .typeError := by
  obtain ⟨d, hd, hdir, hnm, hrta⟩ := h
  apply findRunfoldersGo_none_error
  refine ⟨d, ?_, hnm, hrta⟩
  rw [(List.perm_insertionSort _ _).mem_iff, List.mem_filter]
  exact ⟨hd, hdir⟩

/-- Witness for the C10 theorem at a concrete root. -/
theorem find_runfolders_none_min_age_raises_witness :
    find_runfolders 0 [cexDir10] none = .error .typeError :=
  find_runfolders_none_min_age_raises 0 [cexDir10]
    ⟨cexDir10, by simp, rfl, by decide, rfl⟩
